import Mathlib

set_option maxRecDepth 8000

/-!
Verification of the block-file ingestion pipeline of a bitcoin-to-postgres
bulk importer, as a shallow embedding of its Rust sources.

Embedded units (source file on the right):
- binary readers: read_var_int, read_hash, read_input, read_output,
  read_witness_data, read_transaction, read_block     (src/file_reader.rs)
- hasher / sizer: varint_size, calculate_tx, calculate_block_hash,
  process_block                                       (src/block_processor.rs)
- difficulty: calculate_block_difficulty              (src/utils.rs)
- bulk loader: is_bip30_conflict, insert_blocks       (src/database.rs)

Modelling conventions:
- bytes are Nat values below 256; machine integers are Nat or Int with
  explicit reductions mod 2 to the word size where the source casts;
- i32 and i64 fields are Int in two's-complement reading;
- the Rust String fields script_sig and script_pub_key always hold the
  lowercase hex encoding of the raw script bytes (they are produced by
  hex encode in read_input and read_output), so they are modelled by the
  raw byte list; the hex string length is exactly twice the byte length,
  and hex decode of the field gives back the byte list;
- f64 difficulty arithmetic is modelled by exact rational arithmetic;
- fallible readers return Except over an error kind inductive.
-/

/-! ## Byte and little-endian helpers -/

def leToNat (l : List Nat) : Nat :=
  l.foldr (fun b acc => b + 256 * acc) 0

def u16ToLe (n : Nat) : List Nat :=
  [n % 256, n / 256 % 256]

def u32ToLe (n : Nat) : List Nat :=
  [n % 256, n / 256 % 256, n / 65536 % 256, n / 16777216 % 256]

def u64ToLe (n : Nat) : List Nat :=
  [n % 256, n / 256 % 256, n / 65536 % 256, n / 16777216 % 256,
   n / 4294967296 % 256, n / 1099511627776 % 256,
   n / 281474976710656 % 256, n / 72057594037927936 % 256]

/-- Reading of a nonnegative word as an i32 in two's complement. -/
def u32AsI32 (n : Nat) : Int :=
  if n < 2 ^ 31 then (n : Int) else (n : Int) - 2 ^ 32

def u64AsI64 (n : Nat) : Int :=
  if n < 2 ^ 63 then (n : Int) else (n : Int) - 2 ^ 64

/-- Truncating cast of an Int to a u32 bit pattern, as in Rust `as u32`. -/
def intAsU32 (z : Int) : Nat :=
  (z % 2 ^ 32).toNat

def intAsU64 (z : Int) : Nat :=
  (z % 2 ^ 64).toNat

/-- Little-endian bytes of an i32, as produced by to_le_bytes. -/
def i32ToLe (z : Int) : List Nat :=
  u32ToLe (intAsU32 z)

/-- Little-endian bytes of an i64, as produced by to_le_bytes. -/
def i64ToLe (z : Int) : List Nat :=
  u64ToLe (intAsU64 z)

/-- Lowercase hex digit value. -/
def hexVal (c : Char) : Nat :=
  if c.toNat ≥ 97 then c.toNat - 87 else c.toNat - 48

def hexBytes : List Char → List Nat
  | c0 :: c1 :: rest => (16 * hexVal c0 + hexVal c1) :: hexBytes rest
  | _ => []

/-- Byte list denoted by a hex string literal (mirrors hex decode). -/
def hexDecode (s : String) : List Nat :=
  hexBytes s.toList

/-! ## SHA-256 (FIPS 180-4) over byte lists

The Rust sources call the sha2 crate; the hash itself is external library
code, embedded here directly from the FIPS 180-4 definition. Words are Nat
reduced mod 2 ^ 32. -/

def rotr32 (n x : Nat) : Nat :=
  ((x >>> n) ||| (x <<< (32 - n))) &&& 0xffffffff

def shaCh (x y z : Nat) : Nat := (x &&& y) ^^^ ((x ^^^ 0xffffffff) &&& z)

def shaMaj (x y z : Nat) : Nat := (x &&& y) ^^^ (x &&& z) ^^^ (y &&& z)

def shaBigSigma0 (x : Nat) : Nat := rotr32 2 x ^^^ rotr32 13 x ^^^ rotr32 22 x

def shaBigSigma1 (x : Nat) : Nat := rotr32 6 x ^^^ rotr32 11 x ^^^ rotr32 25 x

def shaSmallSigma0 (x : Nat) : Nat := rotr32 7 x ^^^ rotr32 18 x ^^^ (x >>> 3)

def shaSmallSigma1 (x : Nat) : Nat := rotr32 17 x ^^^ rotr32 19 x ^^^ (x >>> 10)

def shaK : List Nat :=
  [1116352408, 1899447441, 3049323471, 3921009573, 961987163,
   1508970993, 2453635748, 2870763221, 3624381080, 310598401,
   607225278, 1426881987, 1925078388, 2162078206, 2614888103,
   3248222580, 3835390401, 4022224774, 264347078, 604807628,
   770255983, 1249150122, 1555081692, 1996064986, 2554220882,
   2821834349, 2952996808, 3210313671, 3336571891, 3584528711,
   113926993, 338241895, 666307205, 773529912, 1294757372,
   1396182291, 1695183700, 1986661051, 2177026350, 2456956037,
   2730485921, 2820302411, 3259730800, 3345764771, 3516065817,
   3600352804, 4094571909, 275423344, 430227734, 506948616,
   659060556, 883997877, 958139571, 1322822218, 1537002063,
   1747873779, 1955562222, 2024104815, 2227730452, 2361852424,
   2428436474, 2756734187, 3204031479, 3329325298]

structure Sha256State where
  a : Nat
  b : Nat
  c : Nat
  d : Nat
  e : Nat
  f : Nat
  g : Nat
  h : Nat

def shaInitState : Sha256State :=
  ⟨1779033703, 3144134277, 1013904242, 2773480762, 1359893119, 2600822924, 528734635, 1541459225⟩

def be32 (n : Nat) : List Nat :=
  [(n >>> 24) &&& 255, (n >>> 16) &&& 255, (n >>> 8) &&& 255, n &&& 255]

def be64 (n : Nat) : List Nat :=
  [(n >>> 56) &&& 255, (n >>> 48) &&& 255, (n >>> 40) &&& 255, (n >>> 32) &&& 255,
   (n >>> 24) &&& 255, (n >>> 16) &&& 255, (n >>> 8) &&& 255, n &&& 255]

def sha256Pad (msg : List Nat) : List Nat :=
  let padZeros := (119 - msg.length % 64) % 64
  msg ++ 0x80 :: List.replicate padZeros 0 ++ be64 (8 * msg.length)

def beWords : List Nat → List Nat
  | b0 :: b1 :: b2 :: b3 :: rest =>
      ((((b0 <<< 8) ||| b1) <<< 8 ||| b2) <<< 8 ||| b3) :: beWords rest
  | _ => []

def shaExtendStep (ws : List Nat) : List Nat :=
  let n := ws.length
  ws ++ [(shaSmallSigma1 (ws.getD (n - 2) 0) + ws.getD (n - 7) 0 +
          shaSmallSigma0 (ws.getD (n - 15) 0) + ws.getD (n - 16) 0) % 4294967296]

def shaRound (ws : List Nat) (st : Sha256State) (t : Nat) : Sha256State :=
  let t1 := (st.h + shaBigSigma1 st.e + shaCh st.e st.f st.g + shaK.getD t 0 + ws.getD t 0) % 4294967296
  let t2 := (shaBigSigma0 st.a + shaMaj st.a st.b st.c) % 4294967296
  ⟨(t1 + t2) % 4294967296, st.a, st.b, st.c, (st.d + t1) % 4294967296, st.e, st.f, st.g⟩

def shaCompress (st : Sha256State) (block : List Nat) : Sha256State :=
  let ws := (List.range 48).foldl (fun w _ => shaExtendStep w) (beWords block)
  let fin := (List.range 64).foldl (shaRound ws) st
  ⟨(st.a + fin.a) % 4294967296, (st.b + fin.b) % 4294967296,
   (st.c + fin.c) % 4294967296, (st.d + fin.d) % 4294967296,
   (st.e + fin.e) % 4294967296, (st.f + fin.f) % 4294967296,
   (st.g + fin.g) % 4294967296, (st.h + fin.h) % 4294967296⟩

/-- Iterated compression over 64-byte chunks; the fuel argument makes the
recursion structural (any fuel at least the chunk count gives the result). -/
def shaBlocks : Nat → Sha256State → List Nat → Sha256State
  | 0, st, _ => st
  | _, st, [] => st
  | fuel + 1, st, l => shaBlocks fuel (shaCompress st (l.take 64)) (l.drop 64)

def sha256 (msg : List Nat) : List Nat :=
  let padded := sha256Pad msg
  let st := shaBlocks padded.length shaInitState padded
  be32 st.a ++ be32 st.b ++ be32 st.c ++ be32 st.d ++
  be32 st.e ++ be32 st.f ++ be32 st.g ++ be32 st.h

/-- Sanity check against the FIPS 180-4 test vector for the string abc. -/
theorem sha256_abc_vector :
    sha256 [0x61, 0x62, 0x63] =
      hexDecode "ba7816bf8f01cfea414140de5dae2223b00361a396177a9cb410ff61f20015ad" := by
  decide

/-! ## Data model (src/models.rs)

Surrogate id fields assigned at load time are kept; the readers set them
to zero as placeholders exactly like the source. The source declares
Block.bits as i32 while the file reader stores the little-endian bytes of
the u32 it read and the hasher casts the field with as u32; all variants
carry the same u32 value, modelled here as that Nat. -/

structure Input where
  id : Int
  txid : List Nat
  input_index : Int
  previous_txid : List Nat
  previous_output_index : Int
  script_sig : List Nat
  sequence : Int
deriving Repr, DecidableEq

structure Output where
  id : Int
  txid : List Nat
  output_index : Int
  value : Int
  script_pub_key : List Nat
deriving Repr, DecidableEq

structure Transaction where
  id : Int
  txid : List Nat
  block_hash : List Nat
  size : Int
  version : Int
  locktime : Int
  inputs : List Input
  outputs : List Output
  witness : Option (List (List (List Nat)))
deriving Repr, DecidableEq

structure Block where
  id : Int
  block_hash : List Nat
  height : Int
  time : Nat
  difficulty : ℚ
  merkle_root : List Nat
  nonce : Int
  size : Int
  version : Int
  bits : Nat
  previous_block : List Nat
  active : Bool
  transactions : List Transaction
deriving Repr, DecidableEq

/-! ## Binary readers (src/file_reader.rs)

Readers consume a list of remaining bytes and return the decoded value
together with the bytes left. The one-byte rewind after peeking the
SegWit marker is modelled by continuing with the unconsumed list. -/

inductive DecodeError where
  | unexpectedEof
  | malformedWitness
  | scriptSigTooLarge
  | scriptPubKeyTooLarge
deriving Repr, DecidableEq

def readU8 : List Nat → Except DecodeError (Nat × List Nat)
  | [] => .error .unexpectedEof
  | b :: rest => .ok (b, rest)

def readU16 : List Nat → Except DecodeError (Nat × List Nat)
  | b0 :: b1 :: rest => .ok (b0 + 256 * b1, rest)
  | _ => .error .unexpectedEof

def readU32 : List Nat → Except DecodeError (Nat × List Nat)
  | b0 :: b1 :: b2 :: b3 :: rest =>
      .ok (b0 + 256 * b1 + 65536 * b2 + 16777216 * b3, rest)
  | _ => .error .unexpectedEof

def readU64 : List Nat → Except DecodeError (Nat × List Nat)
  | b0 :: b1 :: b2 :: b3 :: b4 :: b5 :: b6 :: b7 :: rest =>
      .ok (b0 + 256 * b1 + 65536 * b2 + 16777216 * b3 + 4294967296 * b4 +
           1099511627776 * b5 + 281474976710656 * b6 + 72057594037927936 * b7, rest)
  | _ => .error .unexpectedEof

def readI32 (l : List Nat) : Except DecodeError (Int × List Nat) :=
  match readU32 l with
  | .ok (n, rest) => .ok (u32AsI32 n, rest)
  | .error e => .error e

def readI64 (l : List Nat) : Except DecodeError (Int × List Nat) :=
  match readU64 l with
  | .ok (n, rest) => .ok (u64AsI64 n, rest)
  | .error e => .error e

/-- Exact read of a fixed number of bytes (read_exact). -/
def readExact (n : Nat) (l : List Nat) : Except DecodeError (List Nat × List Nat) :=
  if n ≤ l.length then .ok (l.take n, l.drop n) else .error .unexpectedEof

/-- Embedding of read_var_int: one tag byte, then a u16, u32 or u64
little-endian payload for tags 0xFD, 0xFE, 0xFF; any other first byte is
the value itself. -/
def read_var_int : List Nat → Except DecodeError (Nat × List Nat)
  | [] => .error .unexpectedEof
  | b :: rest =>
      if b = 0xFD then readU16 rest
      else if b = 0xFE then readU32 rest
      else if b = 0xFF then readU64 rest
      else .ok (b, rest)

/-- Embedding of FileReader read_hash: 32 bytes taken verbatim, in the
on-disk order, with no reversal. -/
def read_hash (l : List Nat) : Except DecodeError (List Nat × List Nat) :=
  readExact 32 l

/-- Embedding of FileReader read_input. -/
def read_input (l : List Nat) (index : Int) : Except DecodeError (Input × List Nat) := do
  let (previous_txid, l) ← read_hash l
  let (previous_output_index, l) ← readI32 l
  let (script_sig_length, l) ← read_var_int l
  if script_sig_length > 1000000 then
    .error .scriptSigTooLarge
  else do
    let (script_sig, l) ← readExact script_sig_length l
    let (sequence, l) ← readU32 l
    .ok ({ id := 0, txid := [], input_index := index, previous_txid,
           previous_output_index, script_sig, sequence := (sequence : Int) }, l)

/-- Embedding of FileReader read_output. -/
def read_output (l : List Nat) (index : Int) : Except DecodeError (Output × List Nat) := do
  let (value, l) ← readI64 l
  let (script_pub_key_length, l) ← read_var_int l
  if script_pub_key_length > 1000000 then
    .error .scriptPubKeyTooLarge
  else do
    let (script_pub_key, l) ← readExact script_pub_key_length l
    .ok ({ id := 0, txid := [], output_index := index, value, script_pub_key }, l)

def readWitnessItems : Nat → List Nat → Except DecodeError (List (List Nat) × List Nat)
  | 0, l => .ok ([], l)
  | n + 1, l => do
      let (len, l) ← read_var_int l
      let (field, l) ← readExact len l
      let (rest, l) ← readWitnessItems n l
      .ok (field :: rest, l)

/-- Embedding of read_witness_data: a varint count of stack items, each a
varint-prefixed byte string. -/
def read_witness_data (l : List Nat) : Except DecodeError (List (List Nat) × List Nat) := do
  let (witness_count, l) ← read_var_int l
  readWitnessItems witness_count l

def readInputs : Nat → Int → List Nat → Except DecodeError (List Input × List Nat)
  | 0, _, l => .ok ([], l)
  | n + 1, i, l => do
      let (inp, l) ← read_input l i
      let (rest, l) ← readInputs n (i + 1) l
      .ok (inp :: rest, l)

def readOutputs : Nat → Int → List Nat → Except DecodeError (List Output × List Nat)
  | 0, _, l => .ok ([], l)
  | n + 1, i, l => do
      let (out, l) ← read_output l i
      let (rest, l) ← readOutputs n (i + 1) l
      .ok (out :: rest, l)

def readWitnesses : Nat → List Nat → Except DecodeError (List (List (List Nat)) × List Nat)
  | 0, l => .ok ([], l)
  | n + 1, l => do
      let (w, l) ← read_witness_data l
      let (rest, l) ← readWitnesses n l
      .ok (w :: rest, l)

/-- Body of read_transaction after the version and marker handling: input
count and inputs, output count and outputs, the per-input witness stacks
when the segwit flag was observed, then locktime. The witness field is
populated exactly when segwit is set. -/
def readWitnessSection (segwit : Bool) (input_count : Nat) (l : List Nat) :
    Except DecodeError (Option (List (List (List Nat))) × List Nat) :=
  if segwit then do
    let (witnesses, l) ← readWitnesses input_count l
    Except.ok (some witnesses, l)
  else
    Except.ok (none, l)

def readTxBody (segwit : Bool) (version : Int) (l : List Nat) : Except DecodeError (Transaction × List Nat) := do
  let (input_count, l) ← read_var_int l
  let (inputs, l) ← readInputs input_count 0 l
  let (output_count, l) ← read_var_int l
  let (outputs, l) ← readOutputs output_count 0 l
  let (witness_data, l) ← readWitnessSection segwit input_count l
  let (locktime, l) ← readU32 l
  .ok ({ id := 0, txid := [], block_hash := [], size := 0, version,
         locktime := u32AsI32 locktime, inputs, outputs, witness := witness_data }, l)

/-- Embedding of FileReader read_transaction: a 4-byte version, then a
peeked marker byte; marker zero consumes the flag byte which must be one
(else MalformedWitness), any other marker byte is pushed back by a
one-byte seek, then the transaction body. -/
def read_transaction (l : List Nat) : Except DecodeError (Transaction × List Nat) :=
  match readI32 l with
  | .error e => .error e
  | .ok (version, l1) =>
      match l1 with
      | [] => .error .unexpectedEof
      | marker :: l2 =>
          if marker = 0 then
            match l2 with
            | [] => .error .unexpectedEof
            | flag :: l3 =>
                if flag ≠ 1 then .error .malformedWitness
                else readTxBody true version l3
          else
            readTxBody false version (marker :: l2)

def readTransactions : Nat → List Nat → Except DecodeError (List Transaction × List Nat)
  | 0, l => .ok ([], l)
  | n + 1, l => do
      let (tx, l) ← read_transaction l
      let (rest, l) ← readTransactions n l
      .ok (tx :: rest, l)

/-- Embedding of FileReader read_block: the 8-byte magic and size framing
is read and discarded, then the 80-byte header fields, then a varint
transaction count and that many transactions. Derived fields are left as
placeholders exactly like the source. -/
def read_block (l : List Nat) : Except DecodeError (Block × List Nat) := do
  let (_magic, l) ← readU32 l
  let (_size, l) ← readU32 l
  let (version, l) ← readI32 l
  let (previous_block, l) ← read_hash l
  let (merkle_root, l) ← read_hash l
  let (time, l) ← readU32 l
  let (bits, l) ← readU32 l
  let (nonce, l) ← readU32 l
  let (tx_count, l) ← read_var_int l
  let (transactions, l) ← readTransactions tx_count l
  .ok ({ id := 0, block_hash := [], height := 0, time, difficulty := 0,
         merkle_root, nonce := (nonce : Int), size := 0, version, bits,
         previous_block, active := true, transactions }, l)

/-! ## Hasher / Sizer (src/block_processor.rs) -/

/-- Embedding of varint_size: the serialized width of a varint-prefixed
count, by range. -/
def varint_size (value : Nat) : Nat :=
  if value ≤ 0xFC then 1
  else if value ≤ 0xFFFF then 3
  else if value ≤ 0xFFFFFFFF then 5
  else 9

/-- Per-input contribution to the transaction size in calculate_tx. The
source applies varint_size to the length of the script_sig hex string
(two characters per raw byte, hence the factor 2) and adds half that hex
length as the script payload. -/
def inputSize (inp : Input) : Nat :=
  32 + 4 + varint_size (2 * inp.script_sig.length) + inp.script_sig.length + 4

/-- Per-output contribution to the transaction size in calculate_tx, with
the same hex-string length convention as inputSize. -/
def outputSize (out : Output) : Nat :=
  8 + varint_size (2 * out.script_pub_key.length) + out.script_pub_key.length

/-- Witness contribution to the transaction size in calculate_tx: the
witness items are raw byte vectors, so their true byte lengths are used. -/
def witnessSize (tx : Transaction) : Nat :=
  match tx.witness with
  | none => 0
  | some witness =>
      (witness.map (fun stack => (stack.map (fun w => varint_size w.length + w.length)).sum)).sum

/-- Bytes fed to the hasher for one input in calculate_tx: the stored
previous_txid reversed, the prev index as u32 little-endian, the raw
script_sig bytes (hex decode of the field) with no length prefix, and the
sequence as u32 little-endian. -/
def inputHashBytes (inp : Input) : List Nat :=
  inp.previous_txid.reverse ++ u32ToLe (intAsU32 inp.previous_output_index) ++
  inp.script_sig ++ u32ToLe (intAsU32 inp.sequence)

/-- Bytes fed to the hasher for one output in calculate_tx: the value as
i64 little-endian and the raw script_pub_key bytes with no length prefix. -/
def outputHashBytes (out : Output) : List Nat :=
  i64ToLe out.value ++ out.script_pub_key

/-- Accumulated hasher input of calculate_tx, built by the same sequence
of update calls as the source: version, then each input, then each
output, then locktime. -/
def txHasherInput (tx : Transaction) : List Nat :=
  ((tx.outputs.foldl (fun acc out => acc ++ outputHashBytes out)
      (tx.inputs.foldl (fun acc inp => acc ++ inputHashBytes inp) (i32ToLe tx.version)))) ++
  u32ToLe (intAsU32 tx.locktime)

/-- Embedding of calculate_tx: the display-order txid (reversed double
SHA-256 of the accumulated hasher input) and the recomputed size. -/
def calculate_tx (tx : Transaction) : List Nat × Nat :=
  let inputs_size := (tx.inputs.map inputSize).sum
  let outputs_size := (tx.outputs.map outputSize).sum
  let witness_size := witnessSize tx
  let size := 4 + varint_size tx.inputs.length + inputs_size +
              varint_size tx.outputs.length + outputs_size + 4 + witness_size
  let txid := (sha256 (sha256 (txHasherInput tx))).reverse
  (txid, size)

/-- Accumulated hasher input of calculate_block_hash, in update order:
version little-endian, the stored previous_block reversed, the stored
merkle_root reversed, then time, bits and nonce each as u32 little-endian. -/
def blockHasherInput (block : Block) : List Nat :=
  i32ToLe block.version ++ block.previous_block.reverse ++ block.merkle_root.reverse ++
  u32ToLe (block.time % 2 ^ 32) ++ u32ToLe (block.bits % 2 ^ 32) ++
  u32ToLe (intAsU32 block.nonce)

/-- Embedding of calculate_block_hash: reversed double SHA-256 of the
header message. -/
def calculate_block_hash (block : Block) : List Nat :=
  (sha256 (sha256 (blockHasherInput block))).reverse

/-- Embedding of process_block: write txid and size into every
transaction, set the block size to the 80-byte header plus the sum of
transaction sizes, and set the block hash. -/
def process_block (block : Block) : Block :=
  let transactions := block.transactions.map (fun tx =>
    let p := calculate_tx tx
    { tx with txid := p.1, size := (p.2 : Int) })
  let transactions_size : Int := (transactions.map (·.size)).sum
  let block_header_size : Int := 4 + 32 + 32 + 4 + 4 + 4
  { block with
      transactions := transactions,
      size := block_header_size + transactions_size,
      block_hash := calculate_block_hash block }

/-! ## Difficulty (src/utils.rs)

The source decodes the compact bits as arbitrary-precision integers,
converts both targets to f64 and divides. The two targets are exactly
representable in f64 (their mantissas are at most 24 bits wide), so the
whole computation is modelled by exact rational arithmetic, the final
division being the only rounding step in the source. -/

def calculate_block_difficulty (bits : Nat) : Except String ℚ :=
  let exp := bits >>> 24
  let coef := bits &&& 0x00ffffff
  if exp < 3 then .error "Exponent underflow"
  else
    let current_target : ℚ := (coef : ℚ) * (256 : ℚ) ^ (exp - 3)
    let difficulty_1_target : ℚ := (0x00ffff : ℚ) * (256 : ℚ) ^ (0x1d - 3 : Nat)
    .ok (difficulty_1_target / current_target)

/-! ## Bulk loader (src/database.rs)

One row structure per target table, holding the values interpolated into
the copy-in line for that table, in column order. The 32-byte identifier
and script columns are written as the hex encoding of the stored byte
lists, which preserves byte order, so the rows carry the byte lists
themselves. -/

structure BlockRow where
  id : Nat
  block_hash : List Nat
  height : Int
  time : Nat
  difficulty : ℚ
  merkle_root : List Nat
  nonce : Int
  size : Int
  version : Int
  bits : Nat
  previous_block : List Nat
  active : Bool
deriving Repr, DecidableEq

structure TxRow where
  id : Nat
  txid : List Nat
  block_hash : List Nat
  size : Int
  version : Int
  locktime : Int
deriving Repr, DecidableEq

structure InputRow where
  id : Nat
  txid : List Nat
  input_index : Int
  previous_txid : List Nat
  previous_output_index : Int
  script_sig : List Nat
  sequence : Int
deriving Repr, DecidableEq

structure OutputRow where
  id : Nat
  txid : List Nat
  output_index : Int
  value : Int
  script_pub_key : List Nat
deriving Repr, DecidableEq

structure BlockTxRow where
  id : Nat
  block_id : Nat
  transaction_id : Nat
deriving Repr, DecidableEq

structure DbRows where
  blockRows : List BlockRow
  txRows : List TxRow
  inputRows : List InputRow
  outputRows : List OutputRow
  blockTxRows : List BlockTxRow
deriving Repr, DecidableEq

/-- Counters of the Database struct, all starting at one. -/
structure DbState where
  block_id : Nat
  tx_id : Nat
  input_id : Nat
  output_id : Nat
  block_tx_id : Nat
deriving Repr, DecidableEq

/-- Embedding of is_bip30_conflict: the two hard-coded filter txids. -/
def is_bip30_conflict (txid : List Nat) : Bool :=
  txid = hexDecode "ef412cf1f8ff44bbf0bede1ea30a0ce741d625425edbf53883d53f7c682a0548" ||
  txid = hexDecode "4a4780f0046f0f69d429a32b0307aabaf2fd437685ee18d28274f4cda1e3d40b"

def insertInputRows (iid : Nat) (txid : List Nat) : List Input → List InputRow × Nat
  | [] => ([], iid)
  | inp :: rest =>
      let tail := insertInputRows (iid + 1) txid rest
      ({ id := iid, txid := txid, input_index := inp.input_index,
         previous_txid := inp.previous_txid,
         previous_output_index := inp.previous_output_index,
         script_sig := inp.script_sig, sequence := inp.sequence } :: tail.1, tail.2)

def insertOutputRows (oid : Nat) (txid : List Nat) : List Output → List OutputRow × Nat
  | [] => ([], oid)
  | out :: rest =>
      let tail := insertOutputRows (oid + 1) txid rest
      ({ id := oid, txid := txid, output_index := out.output_index,
         value := out.value, script_pub_key := out.script_pub_key } :: tail.1, tail.2)

/-- Per-block transaction loop of insert_blocks: a transaction whose txid
is in the hard-coded filter is skipped whole (continue); otherwise its
transactions, inputs, outputs and block_transactions lines are pushed and
the counters advance. -/
def insertTxLoop (st : DbState) (blockHash : List Nat) :
    List Transaction → (List TxRow × List InputRow × List OutputRow × List BlockTxRow) × DbState
  | [] => (([], [], [], []), st)
  | tx :: rest =>
      if is_bip30_conflict tx.txid then insertTxLoop st blockHash rest
      else
        let txRow : TxRow := { id := st.tx_id, txid := tx.txid, block_hash := blockHash,
                               size := tx.size, version := tx.version, locktime := tx.locktime }
        let ir := insertInputRows st.input_id tx.txid tx.inputs
        let or1 := insertOutputRows st.output_id tx.txid tx.outputs
        let btRow : BlockTxRow := { id := st.block_tx_id, block_id := st.block_id,
                                    transaction_id := st.tx_id }
        let st1 : DbState :=
          { st with input_id := ir.2, output_id := or1.2,
                    block_tx_id := st.block_tx_id + 1, tx_id := st.tx_id + 1 }
        let tail := insertTxLoop st1 blockHash rest
        ((txRow :: tail.1.1, ir.1 ++ tail.1.2.1, or1.1 ++ tail.1.2.2.1, btRow :: tail.1.2.2.2),
         tail.2)

def insertBlockLoop (st : DbState) : List Block → DbRows × DbState
  | [] => (⟨[], [], [], [], []⟩, st)
  | block :: rest =>
      let blockRow : BlockRow := { id := st.block_id, block_hash := block.block_hash,
                                   height := block.height, time := block.time,
                                   difficulty := block.difficulty,
                                   merkle_root := block.merkle_root, nonce := block.nonce,
                                   size := block.size, version := block.version,
                                   bits := block.bits, previous_block := block.previous_block,
                                   active := block.active }
      let txPart := insertTxLoop st block.block_hash block.transactions
      let st1 : DbState := { txPart.2 with block_id := txPart.2.block_id + 1 }
      let tail := insertBlockLoop st1 rest
      (⟨blockRow :: tail.1.blockRows, txPart.1.1 ++ tail.1.txRows,
        txPart.1.2.1 ++ tail.1.inputRows, txPart.1.2.2.1 ++ tail.1.outputRows,
        txPart.1.2.2.2 ++ tail.1.blockTxRows⟩, tail.2)

/-- Embedding of insert_blocks, restricted to the rows it streams into
the five copy-in sinks; the database transaction plumbing is external. -/
def insert_blocks (blocks : List Block) : DbRows :=
  (insertBlockLoop ⟨1, 1, 1, 1, 1⟩ blocks).1

/-! ## Specification-side definitions

These definitions transcribe the wording of individual claims, to be
compared with the embedded source functions. -/

/-- Message m of claim C1, written from the claim text: version as 4
little-endian bytes; per input the previous_txid byte-reversed, the
previous_output_index as 4 little-endian bytes, the raw script_sig bytes
with no varint length prefix and the sequence as 4 little-endian bytes;
per output the value as 8 little-endian bytes and the raw script_pub_key
bytes with no length prefix; then the locktime as 4 little-endian bytes.
No count varints and no witness bytes appear. -/
def specTxidMessage (tx : Transaction) : List Nat :=
  i32ToLe tx.version ++
  tx.inputs.flatMap (fun inp =>
    inp.previous_txid.reverse ++ i32ToLe inp.previous_output_index ++
    inp.script_sig ++ u32ToLe (intAsU32 inp.sequence)) ++
  tx.outputs.flatMap (fun out => i64ToLe out.value ++ out.script_pub_key) ++
  i32ToLe tx.locktime

/-- Per-transaction size formula asserted by claim C4, with varint_size
applied to the raw byte lengths of the scripts and no witness term. -/
def specClaimTxSize (tx : Transaction) : Nat :=
  4 + varint_size tx.inputs.length +
  (tx.inputs.map (fun inp =>
    32 + 4 + varint_size inp.script_sig.length + inp.script_sig.length + 4)).sum +
  varint_size tx.outputs.length +
  (tx.outputs.map (fun out =>
    8 + varint_size out.script_pub_key.length + out.script_pub_key.length)).sum +
  4

/-- Canonical varint encoder named by claim C5: one byte below 0xFD, or a
tag byte 0xFD, 0xFE or 0xFF followed by the value in 2, 4 or 8
little-endian bytes. -/
def encodeVarint (n : Nat) : List Nat :=
  if n ≤ 0xFC then [n]
  else if n ≤ 0xFFFF then 0xFD :: u16ToLe n
  else if n ≤ 0xFFFFFFFF then 0xFE :: u32ToLe n
  else 0xFF :: u64ToLe n

/-! ## General lemmas about the embedded functions -/

theorem foldl_append_eq_flatMap {α β : Type} (f : α → List β) :
    ∀ (l : List α) (acc : List β),
      l.foldl (fun a x => a ++ f x) acc = acc ++ l.flatMap f := by
  intro l
  induction l with
  | nil => intro acc; simp
  | cons x xs ih => intro acc; simp [ih, List.append_assoc]

theorem txHasherInput_eq_specTxidMessage (tx : Transaction) :
    txHasherInput tx = specTxidMessage tx := by
  unfold txHasherInput specTxidMessage
  rw [foldl_append_eq_flatMap inputHashBytes, foldl_append_eq_flatMap outputHashBytes]
  unfold inputHashBytes outputHashBytes i32ToLe
  simp [List.append_assoc]

/-! ## Claim C1 -/

/-- C1: for every decoded transaction, the derived txid is the
byte-reversal of the double SHA-256 of the legacy message that
concatenates the version as 4 little-endian bytes, per input the
previous_txid byte-reversed, the previous output index as 4 little-endian
bytes, the raw script_sig bytes with no varint length prefix and the
sequence as 4 little-endian bytes, per output the value as 8
little-endian bytes and the raw script_pub_key bytes with no length
prefix, and the locktime as 4 little-endian bytes; no count varints and
no witness bytes contribute. -/
theorem claim_C1_txid_message (tx : Transaction) :
    (calculate_tx tx).1 = (sha256 (sha256 (specTxidMessage tx))).reverse := by
  unfold calculate_tx
  rw [txHasherInput_eq_specTxidMessage]

/-! ## Claim C2 -/

/-- C2: for every decoded block, the derived block hash is the
byte-reversal of the double SHA-256 of the 80-byte message made of the
version as 4 little-endian bytes, the byte-reversal of the stored
previous_block, the byte-reversal of the stored merkle_root, and time,
bits and nonce each as u32 little-endian; it is a function of only these
six header fields, and in particular of no transaction data. -/
theorem claim_C2_block_hash_message :
    (∀ block : Block,
      calculate_block_hash block =
        (sha256 (sha256 (i32ToLe block.version ++ block.previous_block.reverse ++
          block.merkle_root.reverse ++ u32ToLe (block.time % 2 ^ 32) ++
          u32ToLe (block.bits % 2 ^ 32) ++ u32ToLe (intAsU32 block.nonce)))).reverse) ∧
    (∀ (block : Block) (txs : List Transaction),
      calculate_block_hash { block with transactions := txs } =
        calculate_block_hash block) := by
  constructor
  · intro block
    rfl
  · intro block txs
    rfl

/-! ## Claim C5 -/

/-- C5: encoding any u64 value with the canonical varint encoder and
decoding with read_var_int returns the value and consumes exactly
varint_size bytes, the widths being 1, 3, 5 and 9 by range. -/
theorem claim_C5_varint_roundtrip :
    ∀ n : Nat, n < 2 ^ 64 → ∀ rest : List Nat,
      read_var_int (encodeVarint n ++ rest) = .ok (n, rest) ∧
      (encodeVarint n).length = varint_size n := by
  intro n hn rest
  by_cases h1 : n ≤ 0xFC
  · have e1 : n ≠ 0xFD := by omega
    have e2 : n ≠ 0xFE := by omega
    have e3 : n ≠ 0xFF := by omega
    simp [encodeVarint, varint_size, read_var_int, h1, e1, e2, e3]
  · by_cases h2 : n ≤ 0xFFFF
    · refine ⟨?_, by simp [encodeVarint, varint_size, u16ToLe, h1, h2]⟩
      simp [encodeVarint, read_var_int, u16ToLe, h1, h2, readU16]
      omega
    · by_cases h3 : n ≤ 0xFFFFFFFF
      · refine ⟨?_, by simp [encodeVarint, varint_size, u32ToLe, h1, h2, h3]⟩
        simp [encodeVarint, read_var_int, u32ToLe, h1, h2, h3, readU32]
        omega
      · refine ⟨?_, by simp [encodeVarint, varint_size, u64ToLe, h1, h2, h3]⟩
        simp [encodeVarint, read_var_int, u64ToLe, h1, h2, h3, readU64]
        omega

/-- Witness for C5 at the boundary value 0xFFFF. -/
theorem claim_C5_witness :
    read_var_int (encodeVarint 0xFFFF ++ [7]) = .ok (0xFFFF, [7]) ∧
    (encodeVarint 0xFFFF).length = varint_size 0xFFFF :=
  claim_C5_varint_roundtrip 0xFFFF (by decide) [7]

/-! ## Claim C7 -/

/-- C7: calculate_block_difficulty splits bits into exponent and
coefficient, fails on exponent underflow below 3, and otherwise returns
the reference target 0x00FFFF times 256 to the 26 divided by the decoded
target; at bits 0x1d00ffff the difficulty is 1 within 1e-9 and at bits
0x1b0404cb it is 16307.420938523983 within 1e-6. -/
theorem claim_C7_difficulty :
    (∀ bits : Nat,
      calculate_block_difficulty bits =
        if bits >>> 24 < 3 then .error "Exponent underflow"
        else .ok (((0x00ffff : ℚ) * 256 ^ (26 : Nat)) /
                  (((bits &&& 0x00ffffff : Nat) : ℚ) * 256 ^ (bits >>> 24 - 3)))) ∧
    (∃ q : ℚ, calculate_block_difficulty 0x1d00ffff = .ok q ∧
      |q - 1| ≤ 1 / 1000000000) ∧
    (∃ q : ℚ, calculate_block_difficulty 0x1b0404cb = .ok q ∧
      |q - 16307420938523983 / 1000000000000| ≤ 1 / 1000000) := by
  refine ⟨fun bits => ?_, ⟨1, ?_, by norm_num⟩, ⟨4294901760 / 263371, ?_, ?_⟩⟩
  · unfold calculate_block_difficulty
    by_cases h : bits >>> 24 < 3
    · simp [h]
    · simp [h]
  · have hs : (486604799 : Nat) >>> 24 = 29 := by decide
    have hc : (486604799 : Nat) &&& 16777215 = 65535 := by decide
    simp [calculate_block_difficulty, hs, hc]
  · have hs : (453248203 : Nat) >>> 24 = 27 := by decide
    have hc : (453248203 : Nat) &&& 16777215 = 263371 := by decide
    simp [calculate_block_difficulty, hs, hc]
    norm_num
  · rw [abs_le]
    constructor <;> norm_num

/-! ## Claim C6 -/

/-- Decidable equality for Except values with decidable components. -/
def exceptDecEq {E α : Type} [DecidableEq E] [DecidableEq α] :
    (x y : Except E α) → Decidable (x = y)
  | .error e1, .error e2 =>
      if h : e1 = e2 then .isTrue (by rw [h])
      else .isFalse (fun hh => h (by cases hh; rfl))
  | .error _, .ok _ => .isFalse (fun hh => Except.noConfusion hh)
  | .ok _, .error _ => .isFalse (fun hh => Except.noConfusion hh)
  | .ok a1, .ok a2 =>
      if h : a1 = a2 then .isTrue (by rw [h])
      else .isFalse (fun hh => h (by cases hh; rfl))

instance {E α : Type} [DecidableEq E] [DecidableEq α] : DecidableEq (Except E α) :=
  exceptDecEq

theorem except_bind_ok {E α β : Type} {x : Except E α} {f : α → Except E β} {b : β}
    (h : x >>= f = .ok b) : ∃ a, x = .ok a ∧ f a = .ok b := by
  cases x with
  | error e =>
      simp only [Bind.bind, Except.bind] at h
      exact absurd h (by simp)
  | ok a =>
      refine ⟨a, rfl, ?_⟩
      simpa only [Bind.bind, Except.bind] using h

/-- Successful runs of the transaction body reader carry witness data
exactly when the segwit flag was set on entry. -/
theorem readTxBody_witness_isSome {segwit : Bool} {version : Int} {l : List Nat}
    {tx : Transaction} {rest : List Nat}
    (h : readTxBody segwit version l = .ok (tx, rest)) :
    tx.witness.isSome = segwit := by
  unfold readTxBody at h
  obtain ⟨⟨n, l1⟩, h1, h⟩ := except_bind_ok h
  obtain ⟨⟨ins, l2⟩, h2, h⟩ := except_bind_ok h
  obtain ⟨⟨outn, l3⟩, h3, h⟩ := except_bind_ok h
  obtain ⟨⟨outs, l4⟩, h4, h⟩ := except_bind_ok h
  obtain ⟨⟨wd, l5⟩, h5, h⟩ := except_bind_ok h
  obtain ⟨⟨lt, l6⟩, h6, h⟩ := except_bind_ok h
  simp only [Except.ok.injEq, Prod.mk.injEq] at h
  obtain ⟨htx, _⟩ := h
  subst htx
  show wd.isSome = segwit
  cases segwit with
  | false =>
      simp only [readWitnessSection, Bool.false_eq_true, if_false,
        Except.ok.injEq, Prod.mk.injEq] at h5
      obtain ⟨hwd, _⟩ := h5
      subst hwd
      rfl
  | true =>
      simp only [readWitnessSection, if_true] at h5
      obtain ⟨⟨w, lw⟩, hw, h5⟩ := except_bind_ok h5
      simp only [Except.ok.injEq, Prod.mk.injEq] at h5
      obtain ⟨hwd, _⟩ := h5
      subst hwd
      rfl

/-- C6: after the 4-byte version the decoder looks at one byte; a zero
byte is consumed and the following flag byte must be one, otherwise
decoding fails with the malformed witness error; a non-zero byte is not
consumed and decoding continues as non-segwit; and a successfully
decoded transaction has witness data if and only if the marker and flag
pair zero-one followed the version. -/
theorem claim_C6_segwit_marker :
    (∀ b0 b1 b2 b3 flag : Nat, ∀ rest : List Nat, flag ≠ 1 →
      read_transaction (b0 :: b1 :: b2 :: b3 :: 0 :: flag :: rest) =
        .error .malformedWitness) ∧
    (∀ b0 b1 b2 b3 marker : Nat, ∀ rest : List Nat, marker ≠ 0 →
      read_transaction (b0 :: b1 :: b2 :: b3 :: marker :: rest) =
        readTxBody false (u32AsI32 (b0 + 256 * b1 + 65536 * b2 + 16777216 * b3))
          (marker :: rest)) ∧
    (∀ (s : List Nat) (tx : Transaction) (rest : List Nat),
      read_transaction s = .ok (tx, rest) →
        (tx.witness.isSome ↔ (s.get? 4 = some 0 ∧ s.get? 5 = some 1))) := by
  refine ⟨?_, ?_, ?_⟩
  · intro b0 b1 b2 b3 flag rest hflag
    simp [read_transaction, readI32, readU32, hflag]
  · intro b0 b1 b2 b3 marker rest hmarker
    simp [read_transaction, readI32, readU32, hmarker]
  · intro s tx rest h
    match s with
    | [] => simp [read_transaction, readI32, readU32] at h
    | [b0] => simp [read_transaction, readI32, readU32] at h
    | [b0, b1] => simp [read_transaction, readI32, readU32] at h
    | [b0, b1, b2] => simp [read_transaction, readI32, readU32] at h
    | [b0, b1, b2, b3] => simp [read_transaction, readI32, readU32] at h
    | b0 :: b1 :: b2 :: b3 :: marker :: l2 =>
        simp only [read_transaction, readI32, readU32] at h
        by_cases hm : marker = 0
        · subst hm
          match l2 with
          | [] => simp at h
          | flag :: l3 =>
              by_cases hf : flag = 1
              · subst hf
                simp at h
                have := readTxBody_witness_isSome h
                simp [this]
              · simp [hf] at h
        · simp [hm] at h
          have := readTxBody_witness_isSome h
          simp [this, hm]

/-- Minimal SegWit transaction stream: version, marker and flag, one
input spending 32 zero bytes with empty script, no outputs, an empty
witness stack for the input, locktime. -/
def sampleSegwitStream : List Nat :=
  [1, 0, 0, 0] ++ [0, 1] ++ [1] ++ List.replicate 32 0 ++
  [0, 0, 0, 0] ++ [0] ++ [255, 255, 255, 255] ++ [0] ++ [0] ++ [0, 0, 0, 0]

/-- Transaction decoded from a stream, with a fixed fallback on failure. -/
def decodedTxOf (l : List Nat) : Transaction :=
  match read_transaction l with
  | .ok (tx, _) => tx
  | .error _ => ⟨0, [], [], 0, 0, 0, [], [], none⟩

/-- Witness for C6: a malformed flag byte two fails, a non-zero marker
five is reprocessed as body input count, and the sample SegWit stream
decodes with witness data matching its marker and flag bytes. -/
theorem claim_C6_witness :
    read_transaction [1, 0, 0, 0, 0, 2] = .error .malformedWitness ∧
    read_transaction [1, 0, 0, 0, 5] =
      readTxBody false (u32AsI32 (1 + 256 * 0 + 65536 * 0 + 16777216 * 0)) [5] ∧
    ((decodedTxOf sampleSegwitStream).witness.isSome ↔
      (sampleSegwitStream.get? 4 = some 0 ∧ sampleSegwitStream.get? 5 = some 1)) :=
  ⟨claim_C6_segwit_marker.1 1 0 0 0 2 [] (by decide),
   claim_C6_segwit_marker.2.1 1 0 0 0 5 [] (by decide),
   claim_C6_segwit_marker.2.2 sampleSegwitStream (decodedTxOf sampleSegwitStream) []
     (by decide)⟩

/-! ## Claim C4 -/

/-- Transaction on which the claimed size formula and calculate_tx
disagree: one input with a 127-byte script_sig (so the hex string the
source measures is 254 characters long and earns a 3-byte varint), no
outputs, and one single-byte witness item. -/
def c4Tx : Transaction :=
  { id := 0, txid := [], block_hash := [], size := 0, version := 1, locktime := 0,
    inputs := [{ id := 0, txid := [], input_index := 0,
                 previous_txid := List.replicate 32 0, previous_output_index := 0,
                 script_sig := List.replicate 127 0, sequence := 4294967295 }],
    outputs := [],
    witness := some [[[0]]] }

/-- Counterexample to C4 as stated: on c4Tx the source computes 182
while the claimed formula (varint over the raw byte length, no witness
term) gives 178. -/
theorem claim_C4_counterexample :
    (calculate_tx c4Tx).2 = 182 ∧ specClaimTxSize c4Tx = 178 ∧
    (calculate_tx c4Tx).2 ≠ specClaimTxSize c4Tx := by
  decide

/-- C4 amended: the per-transaction size equals 4 plus the input count
varint width, plus per input 32 + 4 + varint_size of TWICE the raw
script_sig byte length (the hex string length measured by the source)
plus the raw script_sig byte length + 4, plus the output count varint
width, plus per output 8 + varint_size of twice the raw script_pub_key
byte length plus that byte length, plus 4, PLUS the witness bytes: for
each witness item its varint width plus its length. -/
theorem claim_C4_amended (tx : Transaction) :
    (calculate_tx tx).2 =
      4 + varint_size tx.inputs.length +
      (tx.inputs.map (fun inp =>
        32 + 4 + varint_size (2 * inp.script_sig.length) + inp.script_sig.length + 4)).sum +
      varint_size tx.outputs.length +
      (tx.outputs.map (fun out =>
        8 + varint_size (2 * out.script_pub_key.length) + out.script_pub_key.length)).sum +
      4 +
      (match tx.witness with
       | none => 0
       | some witness =>
           (witness.map (fun stack =>
             (stack.map (fun w => varint_size w.length + w.length)).sum)).sum) := by
  rfl

/-! ## Claim C9 -/

/-- On-disk genesis block record: network magic, the 285-byte size field,
then the genesis block payload. -/
def genesisStream : List Nat :=
  hexDecode "f9beb4d91d0100000100000000000000000000000000000000000000000000000000000000000000000000003ba3edfd7a7b12b27ac72c3e67768f617fc81bc3888a51323a9fb8aa4b1e5e4a29ab5f49ffff001d1dac2b7c0101000000010000000000000000000000000000000000000000000000000000000000000000ffffffff4d04ffff001d0104455468652054696d65732030332f4a616e2f32303039204368616e63656c6c6f72206f6e206272696e6b206f66207365636f6e64206261696c6f757420666f722062616e6b73ffffffff0100f2052a01000000434104678afdb0fe5548271967f1a67130b7105cd6a828e03909a67962e0ea1f61deb649f6bc3f4cef38c4f35504e51ec112de5c384df7ba0b8d578a4c702b6bf11d5fac00000000"

/-- Block decoded from the genesis stream, with a fixed fallback. -/
def genesisDecodedBlock : Block :=
  match read_block genesisStream with
  | .ok (b, _) => b
  | .error _ => ⟨0, [], 0, 0, 0, [], 0, 0, 0, 0, [], true, []⟩

/-- Inversion of read_input on a stream whose previous-output-index bytes
are FF FF FF FF: the previous_txid is taken verbatim and the index field
decodes to the i32 value minus one. -/
theorem read_input_prev_fields (h32 : List Nat) (hlen : h32.length = 32)
    (rest : List Nat) (idx : Int) (inp : Input) (r : List Nat)
    (h : read_input (h32 ++ 255 :: 255 :: 255 :: 255 :: rest) idx = .ok (inp, r)) :
    inp.previous_txid = h32 ∧ inp.previous_output_index = -1 := by
  have hhash : read_hash (h32 ++ 255 :: 255 :: 255 :: 255 :: rest) =
      .ok (h32, 255 :: 255 :: 255 :: 255 :: rest) := by
    unfold read_hash readExact
    rw [if_pos (by simp [hlen])]
    rw [← hlen, List.take_left, List.drop_left]
  have hidx : readI32 (255 :: 255 :: 255 :: 255 :: rest) = .ok (-1, rest) := by
    simp [readI32, readU32, u32AsI32]
  unfold read_input at h
  rw [hhash] at h
  simp only [Bind.bind, Except.bind] at h
  rw [hidx] at h
  simp only at h
  obtain ⟨⟨ssl, l3⟩, h3, h⟩ := except_bind_ok h
  by_cases hc : ssl > 1000000
  · simp [hc] at h
  · simp only [hc, if_false] at h
    obtain ⟨⟨ss, l4⟩, h4, h⟩ := except_bind_ok h
    obtain ⟨⟨seqv, l5⟩, h5, h⟩ := except_bind_ok h
    simp only [Except.ok.injEq, Prod.mk.injEq] at h
    obtain ⟨hinp, _⟩ := h
    subst hinp
    exact ⟨rfl, rfl⟩

/-- C9 amended: a coinbase-style input whose four previous-output-index
bytes are FF FF FF FF decodes to previous_output_index minus one, the
i32 two's-complement reading of the bit pattern 0xFFFFFFFF; the genesis
payload decodes to exactly one transaction with one input whose
previous_txid is 32 zero bytes and whose previous_output_index is minus
one. -/
theorem claim_C9_amended :
    (∀ h32 : List Nat, h32.length = 32 →
      ∀ (rest : List Nat) (idx : Int) (inp : Input) (r : List Nat),
        read_input (h32 ++ 255 :: 255 :: 255 :: 255 :: rest) idx = .ok (inp, r) →
        inp.previous_output_index = -1) ∧
    (read_block genesisStream = .ok (genesisDecodedBlock, []) ∧
     genesisDecodedBlock.transactions.length = 1 ∧
     genesisDecodedBlock.transactions.flatMap
       (fun t => t.inputs.map (fun i => (i.previous_txid, i.previous_output_index))) =
       [(List.replicate 32 0, -1)]) := by
  constructor
  · intro h32 hlen rest idx inp r h
    exact (read_input_prev_fields h32 hlen rest idx inp r h).2
  · refine ⟨by decide, by decide, by decide⟩

/-- Input decoded from a sample coinbase-style byte stream. -/
def c9SampleInput : Input :=
  match read_input (List.replicate 32 7 ++ 255 :: 255 :: 255 :: 255 :: [0, 255, 255, 255, 255]) 0 with
  | .ok (inp, _) => inp
  | .error _ => ⟨0, [], 0, [], 0, [], 0⟩

/-- Witness for the amended C9 at a concrete coinbase-style stream. -/
theorem claim_C9_witness : c9SampleInput.previous_output_index = -1 :=
  claim_C9_amended.1 (List.replicate 32 7) (by decide) [0, 255, 255, 255, 255] 0
    c9SampleInput [] (by decide)

/-- Counterexample to C9 as stated: the genesis coinbase input decodes
with previous_output_index minus one, which differs from the claimed
value 4294967295. -/
theorem claim_C9_counterexample :
    read_block genesisStream = .ok (genesisDecodedBlock, []) ∧
    genesisDecodedBlock.transactions.flatMap
      (fun t => t.inputs.map (fun i => i.previous_output_index)) = [-1] ∧
    ¬ ((-1 : Int) = 4294967295) := by
  refine ⟨by decide, by decide, by decide⟩

/-! ## Claim C3 -/

/-- First canonical BIP30 duplicate coinbase txid, display order. -/
def bip30TxidE3 : List Nat :=
  hexDecode "e3bf3d07d4b0375638d5f1db5255fe07ba2c4cb067cd81b84ee974b6585fb468"

/-- Second canonical BIP30 duplicate coinbase txid, display order. -/
def bip30TxidD5 : List Nat :=
  hexDecode "d5d27987d2a3dfc724e359870c6644b40e497bdc0589a033220fe15429d88599"

/-- Batch transaction carrying a given txid. -/
def c3Tx (txid : List Nat) : Transaction :=
  { id := 0, txid := txid, block_hash := [], size := 134, version := 1,
    locktime := 0, inputs := [], outputs := [], witness := none }

/-- Batch block with a one-byte tag as its hash, carrying one transaction. -/
def c3Block (tag : Nat) (txid : List Nat) : Block :=
  { id := 0, block_hash := [tag], height := 0, time := 0, difficulty := 0,
    merkle_root := [], nonce := 0, size := 215, version := 1, bits := 0,
    previous_block := [], active := true, transactions := [c3Tx txid] }

/-- Demonstration against C3: neither canonical BIP30 duplicate txid is
in the hard-coded filter of is_bip30_conflict, so a batch holding one of
them in two different blocks emits two transactions rows, not one. -/
theorem claim_C3_bip30_not_suppressed :
    is_bip30_conflict bip30TxidE3 = false ∧
    is_bip30_conflict bip30TxidD5 = false ∧
    (insert_blocks [c3Block 1 bip30TxidE3, c3Block 2 bip30TxidE3]).txRows.map (fun row => row.txid) =
      [bip30TxidE3, bip30TxidE3] ∧
    (insert_blocks [c3Block 1 bip30TxidD5, c3Block 2 bip30TxidD5]).txRows.map (fun row => row.txid) =
      [bip30TxidD5, bip30TxidD5] := by
  refine ⟨by decide, by decide, by decide, by decide⟩

/-! ## Claim C8 -/

/-- On-disk bytes of the coinbase input's previous txid in the C8 stream:
the 32 values zero to 31, chosen not to be a palindrome. -/
def c8PrevTxidBytes : List Nat := List.range 32

/-- Minimal one-transaction block record: framing, header with raw
previous_block bytes all one and raw merkle_root bytes all two, and a
single legacy transaction whose input spends c8PrevTxidBytes. -/
def c8Stream : List Nat :=
  [249, 190, 180, 217] ++ u32ToLe 132 ++
  [1, 0, 0, 0] ++ List.replicate 32 1 ++ List.replicate 32 2 ++
  [41, 171, 95, 73] ++ [255, 255, 0, 29] ++ [28, 172, 43, 124] ++
  [1] ++
  [1, 0, 0, 0] ++ [1] ++ c8PrevTxidBytes ++ [0, 0, 0, 0] ++ [0] ++
  [255, 255, 255, 255] ++ [0] ++ [0, 0, 0, 0]

/-- Read, hash and bulk-load one block record, the pipeline composition
of the file reader, block processor and bulk loader stages. -/
def loadStream (s : List Nat) : DbRows :=
  match read_block s with
  | .ok (b, _) => insert_blocks [process_block b]
  | .error _ => insert_blocks []

/-- Demonstration against C8: after loading the C8 stream, the
previous_txid column of the inputs row and the previous_block and
merkle_root columns of the blocks row hold exactly the raw on-disk
bytes, although those bytes are not reversal-invariant, so the columns
are in internal byte order rather than the claimed display order. -/
theorem claim_C8_identifier_columns_raw :
    (loadStream c8Stream).inputRows.map (fun row => row.previous_txid) = [c8PrevTxidBytes] ∧
    (loadStream c8Stream).blockRows.map (fun row => row.previous_block) = [List.replicate 32 1] ∧
    (loadStream c8Stream).blockRows.map (fun row => row.merkle_root) = [List.replicate 32 2] ∧
    c8PrevTxidBytes.reverse ≠ c8PrevTxidBytes := by
  refine ⟨by decide, by decide, by decide, by decide⟩

/-! ## Claim C10 -/

theorem insertInputRows_map_txid (txid : List Nat) :
    ∀ (inputs : List Input) (iid : Nat),
      (insertInputRows iid txid inputs).1.map (fun row => row.txid) =
        inputs.map (fun _ => txid) := by
  intro inputs
  induction inputs with
  | nil => intro iid; simp [insertInputRows]
  | cons inp rest ih => intro iid; simp [insertInputRows, ih]

theorem insertOutputRows_map_txid (txid : List Nat) :
    ∀ (outputs : List Output) (oid : Nat),
      (insertOutputRows oid txid outputs).1.map (fun row => row.txid) =
        outputs.map (fun _ => txid) := by
  intro outputs
  induction outputs with
  | nil => intro oid; simp [insertOutputRows]
  | cons out rest ih => intro oid; simp [insertOutputRows, ih]

/-- Non-conflicting transactions of a list, in order. -/
def keptTxs (txs : List Transaction) : List Transaction :=
  txs.filter (fun t => !is_bip30_conflict t.txid)

theorem insertTxLoop_txRows_map (bh : List Nat) :
    ∀ (txs : List Transaction) (st : DbState),
      (insertTxLoop st bh txs).1.1.map (fun row => row.txid) =
        (keptTxs txs).map (fun t => t.txid) := by
  intro txs
  induction txs with
  | nil => intro st; simp [insertTxLoop, keptTxs]
  | cons tx rest ih =>
      intro st
      by_cases hc : is_bip30_conflict tx.txid
      · simp [insertTxLoop, hc, keptTxs, List.filter_cons, ih st]
      · simp only [insertTxLoop, hc, if_false, Bool.false_eq_true, List.map_cons,
          keptTxs, List.filter_cons, Bool.not_false, if_true]
        simp [keptTxs] at ih
        simp [ih]

theorem insertTxLoop_inputRows_map (bh : List Nat) :
    ∀ (txs : List Transaction) (st : DbState),
      (insertTxLoop st bh txs).1.2.1.map (fun row => row.txid) =
        (keptTxs txs).flatMap (fun t => t.inputs.map (fun _ => t.txid)) := by
  intro txs
  induction txs with
  | nil => intro st; simp [insertTxLoop, keptTxs]
  | cons tx rest ih =>
      intro st
      by_cases hc : is_bip30_conflict tx.txid
      · simp [insertTxLoop, hc, keptTxs, List.filter_cons, ih st]
      · simp only [insertTxLoop, hc, if_false, Bool.false_eq_true, keptTxs,
          List.filter_cons, Bool.not_false, if_true, List.flatMap_cons, List.map_append]
        simp [keptTxs] at ih
        simp [ih, insertInputRows_map_txid]

theorem insertTxLoop_outputRows_map (bh : List Nat) :
    ∀ (txs : List Transaction) (st : DbState),
      (insertTxLoop st bh txs).1.2.2.1.map (fun row => row.txid) =
        (keptTxs txs).flatMap (fun t => t.outputs.map (fun _ => t.txid)) := by
  intro txs
  induction txs with
  | nil => intro st; simp [insertTxLoop, keptTxs]
  | cons tx rest ih =>
      intro st
      by_cases hc : is_bip30_conflict tx.txid
      · simp [insertTxLoop, hc, keptTxs, List.filter_cons, ih st]
      · simp only [insertTxLoop, hc, if_false, Bool.false_eq_true, keptTxs,
          List.filter_cons, Bool.not_false, if_true, List.flatMap_cons, List.map_append]
        simp [keptTxs] at ih
        simp [ih, insertOutputRows_map_txid]

theorem insertTxLoop_blockTxRows_length (bh : List Nat) :
    ∀ (txs : List Transaction) (st : DbState),
      (insertTxLoop st bh txs).1.2.2.2.length = (keptTxs txs).length := by
  intro txs
  induction txs with
  | nil => intro st; simp [insertTxLoop, keptTxs]
  | cons tx rest ih =>
      intro st
      by_cases hc : is_bip30_conflict tx.txid
      · simp [insertTxLoop, hc, keptTxs, List.filter_cons, ih st]
      · simp only [insertTxLoop, hc, if_false, Bool.false_eq_true, keptTxs,
          List.filter_cons, Bool.not_false, if_true, List.length_cons]
        simp [keptTxs] at ih
        simp [ih]

theorem insertBlockLoop_blockRows_map :
    ∀ (blocks : List Block) (st : DbState),
      (insertBlockLoop st blocks).1.blockRows.map (fun row => row.block_hash) =
        blocks.map (fun b => b.block_hash) := by
  intro blocks
  induction blocks with
  | nil => intro st; simp [insertBlockLoop]
  | cons b rest ih => intro st; simp [insertBlockLoop, ih]

theorem insertBlockLoop_txRows_map :
    ∀ (blocks : List Block) (st : DbState),
      (insertBlockLoop st blocks).1.txRows.map (fun row => row.txid) =
        blocks.flatMap (fun b => (keptTxs b.transactions).map (fun t => t.txid)) := by
  intro blocks
  induction blocks with
  | nil => intro st; simp [insertBlockLoop]
  | cons b rest ih =>
      intro st
      simp [insertBlockLoop, ih, insertTxLoop_txRows_map]

theorem insertBlockLoop_inputRows_map :
    ∀ (blocks : List Block) (st : DbState),
      (insertBlockLoop st blocks).1.inputRows.map (fun row => row.txid) =
        blocks.flatMap (fun b =>
          (keptTxs b.transactions).flatMap (fun t => t.inputs.map (fun _ => t.txid))) := by
  intro blocks
  induction blocks with
  | nil => intro st; simp [insertBlockLoop]
  | cons b rest ih =>
      intro st
      simp [insertBlockLoop, ih, insertTxLoop_inputRows_map]

theorem insertBlockLoop_outputRows_map :
    ∀ (blocks : List Block) (st : DbState),
      (insertBlockLoop st blocks).1.outputRows.map (fun row => row.txid) =
        blocks.flatMap (fun b =>
          (keptTxs b.transactions).flatMap (fun t => t.outputs.map (fun _ => t.txid))) := by
  intro blocks
  induction blocks with
  | nil => intro st; simp [insertBlockLoop]
  | cons b rest ih =>
      intro st
      simp [insertBlockLoop, ih, insertTxLoop_outputRows_map]

theorem insertBlockLoop_blockTxRows_length :
    ∀ (blocks : List Block) (st : DbState),
      (insertBlockLoop st blocks).1.blockTxRows.length =
        (blocks.map (fun b => (keptTxs b.transactions).length)).sum := by
  intro blocks
  induction blocks with
  | nil => intro st; simp [insertBlockLoop]
  | cons b rest ih =>
      intro st
      simp [insertBlockLoop, ih, insertTxLoop_blockTxRows_length]

/-- C10: insert_blocks skips every occurrence of a transaction whose
txid is one of the two hard-coded filter constants: the transactions
rows are exactly those of the non-filtered transactions in order, the
inputs and outputs rows carry only non-filtered txids, one
block_transactions row is emitted per non-filtered transaction, and one
blocks row is emitted per block regardless. -/
theorem claim_C10_filter_skips_every_occurrence :
    (∀ txid : List Nat, is_bip30_conflict txid = true ↔
      (txid = hexDecode "ef412cf1f8ff44bbf0bede1ea30a0ce741d625425edbf53883d53f7c682a0548" ∨
       txid = hexDecode "4a4780f0046f0f69d429a32b0307aabaf2fd437685ee18d28274f4cda1e3d40b")) ∧
    (∀ blocks : List Block,
      (insert_blocks blocks).txRows.map (fun row => row.txid) =
        blocks.flatMap (fun b => (keptTxs b.transactions).map (fun t => t.txid)) ∧
      (insert_blocks blocks).inputRows.map (fun row => row.txid) =
        blocks.flatMap (fun b =>
          (keptTxs b.transactions).flatMap (fun t => t.inputs.map (fun _ => t.txid))) ∧
      (insert_blocks blocks).outputRows.map (fun row => row.txid) =
        blocks.flatMap (fun b =>
          (keptTxs b.transactions).flatMap (fun t => t.outputs.map (fun _ => t.txid))) ∧
      (insert_blocks blocks).blockTxRows.length =
        (blocks.map (fun b => (keptTxs b.transactions).length)).sum ∧
      (insert_blocks blocks).blockRows.map (fun row => row.block_hash) =
        blocks.map (fun b => b.block_hash)) := by
  constructor
  · intro txid
    simp [is_bip30_conflict]
  · intro blocks
    exact ⟨insertBlockLoop_txRows_map blocks _, insertBlockLoop_inputRows_map blocks _,
           insertBlockLoop_outputRows_map blocks _, insertBlockLoop_blockTxRows_length blocks _,
           insertBlockLoop_blockRows_map blocks _⟩
